import Mathlib

/-!
Verification of the Serbian fiscal-receipt extraction/conversion pipeline
(`src/parser/fiscal_parser.py`, `src/models/fiscal_models.py`).

The Python code is shallowly embedded: `decimal.Decimal` values are modelled
exactly as a coefficient/scale pair (`Dec`), CPython `float` arithmetic is
modelled exactly as round-to-nearest-even to 53 significant bits over exact
fractions (the values occurring here all lie in the normal binary64 range,
far from overflow and subnormals, where this model coincides with IEEE-754
semantics), `int(x)` on a float is truncation toward zero, and
exception-raising code is embedded with `Except String`.  Fractions and
character-list string primitives are defined from scratch so that every
definition evaluates by kernel reduction.
-/

namespace Fiskal

/-- An exact fraction with positive denominator (kept positive by every
operation below; fractions are not normalized). -/
structure Frac where
  n : Int
  d : Int
deriving DecidableEq

/-- Embed an integer. -/
def Frac.ofInt (i : Int) : Frac := ⟨i, 1⟩

/-- Exact product. -/
def Frac.mul (a b : Frac) : Frac := ⟨a.n * b.n, a.d * b.d⟩

/-- Floor of a fraction (denominator positive). -/
def Frac.floor (q : Frac) : Int := Int.fdiv q.n q.d

/-- Strict order by cross-multiplication (denominators positive). -/
def Frac.blt (a b : Frac) : Bool := a.n * b.d < b.n * a.d

/-- The rational value of a fraction, for specification statements. -/
def Frac.val (q : Frac) : ℚ := (q.n : ℚ) / (q.d : ℚ)

/-- `⌊log₂ n⌋` via structural fuel recursion (`Nat.log2` itself is defined by
well-founded recursion and does not reduce in the kernel). -/
def log2fuel : Nat → Nat → Nat
  | 0, _ => 0
  | f + 1, n => if 2 ≤ n then log2fuel f (n / 2) + 1 else 0

/-- `⌊log₂ n⌋` for `n ≥ 1` (zero on zero). -/
def natLog2 (n : Nat) : Nat := log2fuel n n

/-- `2^e` as an exact fraction, for an integer exponent. -/
def pow2F (e : Int) : Frac :=
  if 0 ≤ e then ⟨(2 : Int) ^ e.toNat, 1⟩ else ⟨1, (2 : Int) ^ (-e).toNat⟩

/-- Round a fraction to the nearest integer, ties to even (IEEE-754 default
rounding, used by CPython float arithmetic). -/
def rne (x : Frac) : Int :=
  let f := x.floor
  let r2 := 2 * (x.n - f * x.d)
  if r2 < x.d then f
  else if x.d < r2 then f + 1
  else if f % 2 = 0 then f else f + 1

/-- `⌊log₂ q⌋` for a positive fraction `q` (representation-independent:
the bit lengths bracket the value within a factor of 2 and the comparison
settles the remaining ambiguity). -/
def floorLog2 (q : Frac) : Int :=
  let e0 : Int := (natLog2 q.n.natAbs : Int) - (natLog2 q.d.natAbs : Int)
  if q.blt (pow2F e0) then e0 - 1 else e0

/-- Round an exact fraction to the nearest IEEE-754 binary64 value (normal
range): the exact semantics of CPython `float(q)` for the magnitudes
occurring in this program. -/
def roundDouble (q : Frac) : Frac :=
  if q.n = 0 then ⟨0, 1⟩
  else
    let a : Frac := ⟨|q.n|, q.d⟩
    let k : Int := 52 - floorLog2 a
    let m := rne (a.mul (pow2F k))
    let pk := pow2F (-k)
    let r : Frac := ⟨m * pk.n, pk.d⟩
    if q.n < 0 then ⟨-r.n, r.d⟩ else r

/-- Truncation toward zero: the exact semantics of CPython `int(x)` on a
float value `x`. -/
def intTrunc (q : Frac) : Int :=
  if 0 ≤ q.n then q.floor else -(Frac.floor ⟨-q.n, q.d⟩)

/-- CPython float multiplication: exact product, rounded back to binary64. -/
def floatMul (a b : Frac) : Frac := roundDouble (a.mul b)

/-- Exact model of `decimal.Decimal`: signed coefficient `m` and decimal
scale `s`; the denoted value is `m / 10^s`.  Two `Dec`s with equal value but
different scale are distinct, exactly as `str()` distinguishes
`Decimal("1.0")` from `Decimal("1.00")`. -/
structure Dec where
  m : Int
  s : Nat
deriving DecidableEq

/-- The exact fraction denoted by a `Dec`. -/
def Dec.fr (d : Dec) : Frac := ⟨d.m, (10 : Int) ^ d.s⟩

/-- The rational value denoted by a `Dec`, for specification statements. -/
def Dec.val (d : Dec) : ℚ := (d.m : ℚ) / ((10 : ℚ) ^ d.s)

/-- Left-pad a digit string with zeros up to length `n`. -/
def padZeros (ds : List Char) (n : Nat) : List Char :=
  List.replicate (n - ds.length) '0' ++ ds

/-- `str()` of a `Dec`, as CPython prints a `Decimal` with a small scale
(plain notation; the scientific notation CPython switches to for adjusted
exponents below -6 or for positive exponents cannot arise from the parses in
this program). -/
def Dec.str (d : Dec) : String :=
  let ds := (toString d.m.natAbs).toList
  let sign := if d.m < 0 then "-" else ""
  if d.s = 0 then sign ++ String.mk ds
  else
    let p := padZeros ds (d.s + 1)
    sign ++ String.mk (p.take (p.length - d.s)) ++ "." ++ String.mk (p.drop (p.length - d.s))

/-- `Decimal` multiplication: exact on coefficients, scales add (the 28
significant digits of the default CPython context are never exceeded by the
operands occurring in this program). -/
def Dec.mul (a b : Dec) : Dec := ⟨a.m * b.m, a.s + b.s⟩

/-- Numeric value of a list of ASCII digits. -/
def digitsToNat (ds : List Char) : Nat :=
  ds.foldl (fun acc c => acc * 10 + (c.toNat - '0'.toNat)) 0

/-- Strip leading and trailing whitespace, as Python `str.strip()` does on
the ASCII texts occurring here. -/
def trimChars (l : List Char) : List Char :=
  ((l.dropWhile Char.isWhitespace).reverse.dropWhile Char.isWhitespace).reverse

/-- Split a character list on a separator character; Python
`str.split(sep)` semantics (`[""]` on the empty string). -/
def splitOnChar (sep : Char) (l : List Char) : List (List Char) :=
  l.foldr
    (fun c acc =>
      if c = sep then [] :: acc
      else
        match acc with
        | h :: t => (c :: h) :: t
        | [] => [[c]])
    [[]]

/-- Substring containment, Python `needle in haystack`. -/
def containsSub (h needle : List Char) : Bool :=
  if needle.isPrefixOf h then true
  else
    match h with
    | [] => false
    | _ :: t => containsSub t needle

/-- Substring containment on `String`s. -/
def strContains (s pat : String) : Bool := containsSub s.toList pat.toList

/-- Parse a cleaned numeric string (only digits, `.`, `-` survive the
cleaning in `_parse_serbian_number`) as `Decimal(text)` does: optional
leading sign, digits with at most one decimal point, at least one digit.
`none` models the `InvalidOperation` branch. -/
def parseDecimal (cs : List Char) : Option Dec :=
  let (neg, body) :=
    match cs with
    | '-' :: rest => (true, rest)
    | _ => (false, cs)
  if body.any (fun c => ¬(c.isDigit ∨ c = '.')) then none
  else
    match splitOnChar '.' body with
    | [intPart] =>
      if intPart.isEmpty then none
      else some ⟨(if neg then -1 else 1) * (digitsToNat intPart : Int), 0⟩
    | [intPart, fracPart] =>
      if intPart.isEmpty ∧ fracPart.isEmpty then none
      else
        some ⟨(if neg then -1 else 1) * (digitsToNat (intPart ++ fracPart) : Int),
              fracPart.length⟩
    | _ => none

/-- Character kept by the code's final `re.sub(r"[^\d\.\-]", "", ...)`
(ASCII digits; the program's inputs are ASCII-digit texts). -/
def keptByCode (c : Char) : Bool := c.isDigit ∨ c = '.' ∨ c = '-'

/-- The cleaning pipeline exactly as `_parse_serbian_number` performs it:
`text.replace(".", "")` (drop every dot), then `.replace(",", ".")` (turn
every comma into a dot), then `re.sub(r"[^\d\.\-]", "", ...)` (keep only
digits, dots and minus signs).  Single-character `str.replace` is the
per-character delete/map embedded here. -/
def cleanCode (l : List Char) : List Char :=
  ((l.filter (fun c => c ≠ '.')).map (fun c => if c = ',' then '.' else c)).filter keptByCode

/-- The cleaning pipeline in the order the spec words it: first strip
characters outside `[-0-9.,]`, then remove all dots, then turn commas into
dots. -/
def cleanSpecOrder (l : List Char) : List Char :=
  ((l.filter (fun c => c.isDigit ∨ c = '-' ∨ c = '.' ∨ c = ',')).filter
      (fun c => c ≠ '.')).map (fun c => if c = ',' then '.' else c)

/-- The per-character action both cleaning orders share: a dot is dropped,
a comma becomes a dot, digits and the minus sign stay, everything else is
dropped. -/
def cleanOne (c : Char) : Option Char :=
  if c = '.' then none
  else if c = ',' then some '.'
  else if c.isDigit ∨ c = '-' then some c
  else none

/-- `FiscalParser._parse_serbian_number`: total normalizer for
Serbian-formatted numbers ("1.839,96" → 1839.96).  Every failure path
returns `Decimal("0")`. -/
def parseSerbianNumber (text : String) : Dec :=
  if text = "" then ⟨0, 0⟩
  else
    let t := trimChars text.toList
    let cleaned := cleanCode t
    if cleaned = [] ∨ cleaned = ['-'] ∨ cleaned = ['.'] then ⟨0, 0⟩
    else
      match parseDecimal cleaned with
      | some d => d
      | none => ⟨0, 0⟩

/-- `int(float(x) * 100)` applied to a `Decimal` amount `x`: the converter's
major-unit → minor-unit (kopeck) conversion.  `float(x)` rounds the exact
decimal to binary64, the product with the exact double `100.0` rounds
again, and `int` truncates toward zero. -/
def toCents (d : Dec) : Int := intTrunc (floatMul (roundDouble d.fr) (Frac.ofInt 100))

/-- `int(float(q))`: the converter's quantity conversion. -/
def truncQuantity (d : Dec) : Int := intTrunc (roundDouble d.fr)

/-- Modelled from the spec: conversion to minor units "via ×100 with
half-up rounding" (what the spec and the code's own comment
`# 79.99 -> 7999 копеек` promise). -/
def specHalfUpCents (d : Dec) : Int :=
  let x : Frac := ⟨d.m * 100, (10 : Int) ^ d.s⟩
  if 0 ≤ x.n then Frac.floor ⟨2 * x.n + x.d, 2 * x.d⟩
  else -Frac.floor ⟨2 * (-x.n) + x.d, 2 * x.d⟩

/-- Per-item VAT in the converter: `int(item.sum * 0.1)` for category 2,
`int(item.sum * 0.2)` for category 3, zero otherwise.  The int promotes to
float exactly in this range, the literal is the double nearest 0.1
resp. 0.2. -/
def ndsAmount (nds : Int) (sum : Int) : Int :=
  if nds = 2 then intTrunc (floatMul (Frac.ofInt sum) (roundDouble ⟨1, 10⟩))
  else if nds = 3 then intTrunc (floatMul (Frac.ofInt sum) (roundDouble ⟨1, 5⟩))
  else 0

end Fiskal

namespace Fiskal

/-- `models.fiscal_models.Item` (the validated target line item; all
monetary fields are integers in minor units). -/
structure Item where
  name : String
  quantity : Int
  price : Int
  sum : Int
  nds : Int
  paymentType : Int
  productType : Int
deriving DecidableEq

/-- Construction of an `Item`, running the pydantic `validate_sum` model
validator: `abs(sum - quantity * price) > 5` raises. -/
def mkItem (name : String) (quantity price sum nds paymentType productType : Int) :
    Except String Item :=
  if 5 < |sum - quantity * price| then
    .error ("Сумма " ++ toString sum ++ " не соответствует количеству " ++
      toString quantity ++ " * цена " ++ toString price)
  else
    .ok ⟨name, quantity, price, sum, nds, paymentType, productType⟩

/-- `models.fiscal_models.AmountsNds` (one VAT bucket). -/
structure AmountsNds where
  nds : Int
  ndsSum : Int
deriving DecidableEq

/-- `models.fiscal_models.AmountsReceiptNds`. -/
structure AmountsReceiptNds where
  amountsNds : List AmountsNds
deriving DecidableEq

/-- `models.fiscal_models.Receipt` with the full pydantic field list. -/
structure Receipt where
  cashTotalSum : Int
  code : Int
  creditSum : Int
  dateTime : String
  ecashTotalSum : Int
  fiscalDocumentFormatVer : Int
  fiscalDocumentNumber : Int
  fiscalDriveNumber : String
  fiscalSign : Int
  fnsUrl : String
  items : List Item
  kktRegId : String
  nds0 : Int
  amountsReceiptNds : Option AmountsReceiptNds
  operationType : Int
  operator : Option String
  prepaidSum : Int
  provisionSum : Int
  requestNumber : Option Int
  retailPlace : String
  retailPlaceAddress : String
  shiftNumber : Option Int
  taxationType : Int
  appliedTaxationType : Int
  totalSum : Int
  user : String
  userInn : String
deriving DecidableEq

/-- `sum(item.sum for item in self.items)`. -/
def itemsSum (items : List Item) : Int := (items.map (fun it => it.sum)).sum

/-- Construction of a `Receipt` with the arguments
`SerbianToRussianConverter.convert` passes (all other pydantic fields take
their declared defaults), running the `validate_total_sum` model validator:
`abs(totalSum - items_sum) > 5` raises. -/
def mkReceipt (code : Int) (dateTime : String) (fiscalDocumentNumber : Int)
    (fiscalDriveNumber : String) (fiscalSign : Int) (fnsUrl : String) (kktRegId : String)
    (totalSum ecashTotalSum operationType taxationType appliedTaxationType : Int)
    (user userInn retailPlace retailPlaceAddress : String) (items : List Item)
    (amountsReceiptNds : Option AmountsReceiptNds) : Except String Receipt :=
  if 5 < |totalSum - itemsSum items| then
    .error ("Общая сумма " ++ toString totalSum ++ " не соответствует сумме товаров " ++
      toString (itemsSum items))
  else
    .ok { cashTotalSum := 0, code, creditSum := 0, dateTime, ecashTotalSum,
          fiscalDocumentFormatVer := 4, fiscalDocumentNumber, fiscalDriveNumber,
          fiscalSign, fnsUrl, items, kktRegId, nds0 := 0, amountsReceiptNds,
          operationType, operator := none, prepaidSum := 0, provisionSum := 0,
          requestNumber := none, retailPlace, retailPlaceAddress, shiftNumber := none,
          taxationType, appliedTaxationType, totalSum, user, userInn }

/-- `models.fiscal_models.Document`. -/
structure Document where
  receipt : Receipt
deriving DecidableEq

/-- `models.fiscal_models.Ticket`. -/
structure Ticket where
  document : Document
deriving DecidableEq

/-- `models.fiscal_models.FiscalData` (id and creation date are set by the
converter after construction). -/
structure FiscalData where
  id : Option String
  created_at : Option String
  ticket : Ticket
deriving DecidableEq

/-- A `datetime.datetime` value (naive, to second precision, as produced by
`strptime` in the parser). -/
structure PyDateTime where
  year : Nat
  month : Nat
  day : Nat
  hour : Nat
  minute : Nat
  second : Nat
deriving DecidableEq

/-- Two-digit zero padding. -/
def pad2 (n : Nat) : String := if n < 10 then "0" ++ toString n else toString n

/-- Four-digit zero padding. -/
def pad4 (n : Nat) : String :=
  if n < 10 then "000" ++ toString n
  else if n < 100 then "00" ++ toString n
  else if n < 1000 then "0" ++ toString n
  else toString n

/-- `datetime.strftime("%Y-%m-%dT%H:%M:%S")`. -/
def strftimeIso (t : PyDateTime) : String :=
  pad4 t.year ++ "-" ++ pad2 t.month ++ "-" ++ pad2 t.day ++ "T" ++
    pad2 t.hour ++ ":" ++ pad2 t.minute ++ ":" ++ pad2 t.second

/-- A raw line-item dict as built by `_parse_item_row` /
`_extract_item_from_line` (string keys of a homogeneous Python dict become
fields). -/
structure RawItem where
  name : String
  quantity : Dec
  price : Dec
  sum : Dec
  nds_type : Int
  tax_base : Dec
  vat_amount : Dec
  label : String
deriving DecidableEq

/-- `models.fiscal_models.SerbianFiscalData`: the source receipt assembled
from the parsed HTML. -/
structure SerbianFiscalData where
  tin : String
  shop_name : String
  shop_address : String
  city : String
  administrative_unit : String
  invoice_number : String
  total_amount : Dec
  transaction_type_counter : Int
  total_counter : Int
  invoice_counter_extension : String
  signed_by : String
  sdc_date_time : PyDateTime
  buyer_id : Option String
  requested_by : String
  invoice_type : String
  transaction_type : String
  status : String
  items : List RawItem
deriving DecidableEq

/-- One iteration of the converter's item loop:
`quantity = int(float(...))`, `price = int(float(...) * 100)`,
`sum = int(float(...) * 100)`, then `Item(...)` with `paymentType=4`,
`productType=1`. -/
def convertRawItem (it : RawItem) : Except String Item :=
  mkItem it.name (truncQuantity it.quantity) (toCents it.price) (toCents it.sum)
    it.nds_type 4 1

/-- The placeholder item synthesized when no items were extracted:
one unit priced at the whole receipt total, VAT category 2. -/
def placeholderItem (total : Dec) : Except String Item :=
  mkItem "Товары/услуги" 1 (toCents total) (toCents total) 2 1 1

/-- One step of the VAT aggregation dict:
`if nds_type not in nds_amounts: nds_amounts[nds_type] = 0` followed by
`nds_amounts[nds_type] += nds_amount`, on an insertion-ordered association
list. -/
def addVat (acc : List (Int × Int)) (k v : Int) : List (Int × Int) :=
  if acc.any (fun p => p.1 = k) then
    acc.map (fun p => if p.1 = k then (p.1, p.2 + v) else p)
  else
    acc ++ [(k, v)]

/-- The converter's `nds_amounts` dict after the aggregation loop. -/
def ndsAmountsOf (items : List Item) : List (Int × Int) :=
  items.foldl (fun acc it => addVat acc it.nds (ndsAmount it.nds it.sum)) []

/-- The converter's `amounts_nds_list`: buckets with positive aggregated
amount, in dict insertion order. -/
def ndsBuckets (items : List Item) : List AmountsNds :=
  (ndsAmountsOf items).filterMap (fun p => if 0 < p.2 then some ⟨p.1, p.2⟩ else none)

/-- `SerbianToRussianConverter.convert`.  The 24-character random id the
code draws is passed in as `randomId`; everything else is a function of the
source receipt.  Exceptions escaping item/receipt validation abort the
conversion. -/
def convert (d : SerbianFiscalData) (randomId : String) : Except String FiscalData := do
  let items0 ← d.items.mapM convertRawItem
  let items ←
    if items0.isEmpty then do
      let it ← placeholderItem d.total_amount
      pure [it]
    else pure items0
  let totalCents := toCents d.total_amount
  let bucketList := ndsBuckets items
  let amountsReceiptNds :=
    if bucketList.isEmpty then none else some (AmountsReceiptNds.mk bucketList)
  let receipt ← mkReceipt 3 (strftimeIso d.sdc_date_time) d.total_counter
    "0000000000000000" d.transaction_type_counter "www.nalog.gov.rs" d.tin totalCents
    totalCents 1 2 2 d.shop_name d.tin d.shop_name (d.shop_address ++ ", " ++ d.city)
    items amountsReceiptNds
  pure ⟨some randomId, some (strftimeIso d.sdc_date_time ++ "+00:00"), ⟨⟨receipt⟩⟩⟩

end Fiskal

namespace Fiskal

/-- A rendered-HTML DOM node as BeautifulSoup exposes it: an element with a
tag, attributes and children, or a text node. -/
inductive Node where
  | txt : String → Node
  | elem : String → List (String × String) → List Node → Node

mutual

/-- `find_all` over a list of sibling subtrees, document order. -/
def findAllL (p : Node → Bool) : List Node → List Node
  | [] => []
  | n :: ns => findAllSelf p n ++ findAllL p ns

/-- `find_all` over one subtree, the subtree root included. -/
def findAllSelf (p : Node → Bool) : Node → List Node
  | .txt _ => []
  | .elem t a cs =>
    (if p (.elem t a cs) then [Node.elem t a cs] else []) ++ findAllL p cs

end

/-- BeautifulSoup `Tag.find_all(...)`: matching elements among the strict
descendants of a node, in document order. -/
def Node.findAll (p : Node → Bool) : Node → List Node
  | .txt _ => []
  | .elem _ _ cs => findAllL p cs

mutual

/-- Concatenated raw text of a sibling list. -/
def getTextL : List Node → String
  | [] => ""
  | n :: ns => getTextN n ++ getTextL ns

/-- `get_text()`: concatenation of every descendant string. -/
def getTextN : Node → String
  | .txt s => s
  | .elem _ _ cs => getTextL cs

end

mutual

/-- Concatenated stripped text of a sibling list. -/
def getTextStripL : List Node → String
  | [] => ""
  | n :: ns => getTextStripN n ++ getTextStripL ns

/-- `get_text(strip=True)`: each descendant string stripped, then
concatenated. -/
def getTextStripN : Node → String
  | .txt s => String.mk (trimChars s.toList)
  | .elem _ _ cs => getTextStripL cs

end

/-- Attribute lookup on an element. -/
def Node.attr (n : Node) (k : String) : Option String :=
  match n with
  | .elem _ attrs _ => (attrs.find? (fun p => p.1 = k)).map (fun p => p.2)
  | .txt _ => none

/-- Tag-name test. -/
def isTagB (t : String) (n : Node) : Bool :=
  match n with
  | .elem tg _ _ => tg = t
  | _ => false

/-- `find_all(["td", "th"])` membership test. -/
def isCell (n : Node) : Bool := isTagB "td" n ∨ isTagB "th" n

/-- `find(tag, {"id": idv})` membership test. -/
def hasIdB (t idv : String) (n : Node) : Bool := isTagB t n ∧ n.attr "id" = some idv

/-- The Knockout.js strategy's element filter:
`attrs={"data-bind": lambda x: x and "Specifications" in x}`. -/
def hasSpecBinding (n : Node) : Bool :=
  match n.attr "data-bind" with
  | some v => strContains v "Specifications"
  | none => false

/-- `soup.find(...)`: first match in document order. -/
def findFirst (root : Node) (p : Node → Bool) : Option Node := (root.findAll p).head?

end Fiskal

namespace Fiskal

/-- Consume a run of digits possibly separated by single underscores
(CPython numeric-literal grouping accepted by `int()` and `float()`);
returns the digits read (underscores dropped) and the unconsumed rest. -/
def digitsUAux : List Char → (List Char × List Char)
  | [] => ([], [])
  | '_' :: c :: rest =>
    if c.isDigit then
      let (ds, r) := digitsUAux rest
      (c :: ds, r)
    else ([], '_' :: c :: rest)
  | c :: rest =>
    if c.isDigit then
      let (ds, r) := digitsUAux rest
      (c :: ds, r)
    else ([], c :: rest)

/-- A digit group must begin with a digit. -/
def parseDigitsU (cs : List Char) : Option (List Char × List Char) :=
  match cs with
  | c :: _ => if c.isDigit then some (digitsUAux cs) else none
  | [] => none

/-- Optional exponent part of a CPython float literal; `none` on a
malformed exponent, otherwise the unconsumed rest. -/
def parseExp (cs : List Char) : Option (List Char) :=
  match cs with
  | c :: rest =>
    if c = 'e' ∨ c = 'E' then
      let rest2 :=
        match rest with
        | s :: r2 => if s = '+' ∨ s = '-' then r2 else rest
        | [] => rest
      match parseDigitsU rest2 with
      | some (_, r3) => some r3
      | none => none
    else some cs
  | [] => some []

/-- Whether CPython `float(s)` succeeds: optional sign, then
`inf`/`infinity`/`nan` (case-insensitive) or digits with an optional
fraction and exponent, surrounded by optional whitespace. -/
def pyFloatOk (s : String) : Bool :=
  let cs := trimChars s.toList
  let body :=
    match cs with
    | c :: rest => if c = '+' ∨ c = '-' then rest else cs
    | [] => cs
  let low := body.map Char.toLower
  if low = "inf".toList ∨ low = "infinity".toList ∨ low = "nan".toList then true
  else
    match parseDigitsU body with
    | some (_, rest) =>
      let rest2 :=
        match rest with
        | '.' :: r =>
          (match parseDigitsU r with
           | some (_, r2) => r2
           | none => r)
        | _ => rest
      decide (parseExp rest2 = some [])
    | none =>
      match body with
      | '.' :: r =>
        (match parseDigitsU r with
         | some (_, rest) => decide (parseExp rest = some [])
         | none => false)
      | _ => false

/-- CPython `int(s)` on a base-10 string: optional sign and a digit group,
surrounded by optional whitespace; `none` models the `ValueError`. -/
def pyInt (s : String) : Option Int :=
  let cs := trimChars s.toList
  let (neg, body) :=
    match cs with
    | '+' :: rest => (false, rest)
    | '-' :: rest => (true, rest)
    | _ => (false, cs)
  match parseDigitsU body with
  | some (ds, []) => some ((if neg then -1 else 1) * (digitsToNat ds : Int))
  | _ => none

/-- `cells[i].get_text(strip=True)` with the source's out-of-range
default. -/
def cellText (cells : List Node) (i : Nat) (dflt : String) : String :=
  match cells.get? i with
  | some c => getTextStripN c
  | none => dflt

/-- `FiscalParser._parse_item_row`: texts of the first four cells are
name/quantity/price/sum, optional cells 5-7 are tax base, VAT amount and
the tax label; the label's characters select the VAT category (default
category 2). -/
def parseItemRow (cells : List Node) : RawItem :=
  let name := cellText cells 0 ""
  let quantityText := cellText cells 1 ""
  let unitPriceText := cellText cells 2 ""
  let totalText := cellText cells 3 ""
  let taxBaseText := cellText cells 4 "0"
  let vatAmountText := cellText cells 5 "0"
  let label := cellText cells 6 "Е"
  let quantity := if quantityText ≠ "" then parseSerbianNumber quantityText else (⟨0, 0⟩ : Dec)
  let nds_type : Int :=
    if strContains label "Ђ" ∨ strContains label "20" then 3
    else if strContains label "Е" ∨ strContains label "10" then 2
    else if strContains label "А" then 1
    else 2
  ⟨name, quantity, parseSerbianNumber unitPriceText, parseSerbianNumber totalText,
    nds_type, parseSerbianNumber taxBaseText, parseSerbianNumber vatAmountText, label⟩

/-- One row of `_extract_items_by_knockout_binding`'s inner loop, carrying
the accumulated items and the `seen_items` dedup keys
(`f"{name}_{quantity}_{price}"`, with `str(Decimal)` rendering). -/
def knockoutStep (acc : List RawItem × List String) (row : Node) :
    List RawItem × List String :=
  let cells := row.findAll isCell
  if 4 ≤ cells.length then
    let item := parseItemRow cells
    if item.name ≠ "" then
      let key := item.name ++ "_" ++ item.quantity.str ++ "_" ++ item.price.str
      if acc.2.contains key then acc
      else (acc.1 ++ [item], acc.2 ++ [key])
    else acc
  else acc

/-- `FiscalParser._extract_items_by_knockout_binding`: rows of every
element whose `data-bind` mentions `Specifications`, deduplicated by
(name, quantity, price). -/
def knockoutItems (soup : Node) : List RawItem :=
  ((soup.findAll hasSpecBinding).foldl
      (fun acc el => (el.findAll (isTagB "tr")).foldl knockoutStep acc)
      ([], [])).1

/-- `FiscalParser._is_item_row`: a row is an item when cell 2 parses as a
float after `","→"."`, cells 3 and 4 parse as floats after dropping dots
and `","→"."`, and cell 1 is non-blank. -/
def isItemRowTexts (cellTexts : List String) : Bool :=
  if cellTexts.length < 4 then false
  else
    let quantity :=
      String.mk ((cellTexts.getD 1 "").toList.map (fun c => if c = ',' then '.' else c))
    let price :=
      String.mk (((cellTexts.getD 2 "").toList.filter (fun c => c ≠ '.')).map
        (fun c => if c = ',' then '.' else c))
    let total :=
      String.mk (((cellTexts.getD 3 "").toList.filter (fun c => c ≠ '.')).map
        (fun c => if c = ',' then '.' else c))
    if pyFloatOk quantity ∧ pyFloatOk price ∧ pyFloatOk total then
      ¬trimChars (cellTexts.getD 0 "").toList = []
    else false

/-- The generic-table scan of `_extract_items_from_table` (method 2): every
`tr` of the document with at least four cells whose texts pass
`_is_item_row` contributes one parsed item with a non-empty name. -/
def tableItems (soup : Node) : List RawItem :=
  (soup.findAll (isTagB "tr")).foldl
    (fun acc row =>
      let cells := row.findAll isCell
      if 4 ≤ cells.length then
        if isItemRowTexts (cells.map getTextStripN) then
          let item := parseItemRow cells
          if item.name ≠ "" then acc ++ [item] else acc
        else acc
      else acc)
    []

/-- Whether a character list begins with a digit. -/
def startsWithDigit : List Char → Bool
  | c :: _ => c.isDigit
  | [] => false

/-- `re.findall(r"\d+[.,]\d+", line)`: leftmost non-overlapping runs of
digits, one dot-or-comma separator, digits (fuel-driven scan; the input
length bounds the recursion depth). -/
def findNumsAux : Nat → List Char → List String
  | 0, _ => []
  | _, [] => []
  | fuel + 1, c :: rest =>
    if c.isDigit then
      let d1 := (c :: rest).takeWhile Char.isDigit
      let r1 := (c :: rest).dropWhile Char.isDigit
      match r1 with
      | sep :: r2 =>
        if (sep = '.' ∨ sep = ',') ∧ startsWithDigit r2 then
          let d2 := r2.takeWhile Char.isDigit
          let r3 := r2.dropWhile Char.isDigit
          String.mk (d1 ++ sep :: d2) :: findNumsAux fuel r3
        else findNumsAux fuel rest
      | [] => []
    else findNumsAux fuel rest

/-- All Serbian-format number tokens of a line. -/
def findSerbNums (s : String) : List String := findNumsAux s.length s.toList

/-- `FiscalParser._looks_like_item_line`: at least two number tokens. -/
def looksLikeItemLine (line : String) : Bool := 2 ≤ (findSerbNums line).length

/-- `FiscalParser._extract_item_from_line`: with at least three number
tokens, the non-digit prefix (stripped) names the item — `"Товар"` when the
line starts with a digit — and the first three tokens are quantity, price
and sum; tax base and VAT amount are the flat `0.909`/`0.091` decimal
products. -/
def extractItemFromLine (line : String) : Option RawItem :=
  let numbers := findSerbNums line
  if 3 ≤ numbers.length then
    let namePrefix := line.toList.takeWhile (fun c => ¬c.isDigit)
    let name := if namePrefix ≠ [] then String.mk (trimChars namePrefix) else "Товар"
    let total := parseSerbianNumber (numbers.getD 2 "")
    some ⟨name, parseSerbianNumber (numbers.getD 0 ""), parseSerbianNumber (numbers.getD 1 ""),
      total, 2, total.mul ⟨909, 3⟩, total.mul ⟨91, 3⟩, "Е"⟩
  else none

/-- `FiscalParser._extract_items_by_text_search` (method 3): scan the
document text line by line. -/
def textItems (soup : Node) : List RawItem :=
  (splitOnChar '\n' (getTextN soup).toList).foldl
    (fun acc l0 =>
      let line := String.mk (trimChars l0)
      if 10 < line.length ∧ line.toList.any Char.isDigit then
        if looksLikeItemLine line then
          match extractItemFromLine line with
          | some it => acc ++ [it]
          | none => acc
        else acc
      else acc)
    []

/-- `FiscalParser._extract_items_from_table`: the strategy chain — the
Knockout-binding result if non-empty, else the generic table scan, else the
free-text scan. -/
def extractItemsFromTable (soup : Node) : List RawItem :=
  let k := knockoutItems soup
  if k ≠ [] then k
  else
    let t := tableItems soup
    if t ≠ [] then t
    else textItems soup

end Fiskal

namespace Fiskal

/-- The common shape of `_extract_tin`, `_extract_shop_name`, …: text of the
first element with the given tag and id, else the empty string. -/
def extractLabeled (soup : Node) (tag idv : String) : String :=
  match findFirst soup (hasIdB tag idv) with
  | some el => getTextStripN el
  | none => ""

/-- `FiscalParser._extract_total_amount`: the total-amount label parsed as a
Serbian number, `Decimal("0")` when absent. -/
def extractTotalAmount (soup : Node) : Dec :=
  match findFirst soup (hasIdB "span" "totalAmountLabel") with
  | some el => parseSerbianNumber (getTextStripN el)
  | none => ⟨0, 0⟩

/-- `_extract_transaction_type_counter` / `_extract_total_counter`:
`int(text)` of the counter label when present — raising `ValueError` on
non-numeric text — and `0` when the element is missing. -/
def extractCounter (soup : Node) (idv : String) : Except String Int :=
  match findFirst soup (hasIdB "span" idv) with
  | some el =>
    (match pyInt (getTextStripN el) with
     | some n => .ok n
     | none => .error ("invalid literal for int() with base 10: " ++ getTextStripN el))
  | none => .ok 0

/-- All digits, at least one. -/
def parseNatDigits (cs : List Char) : Option Nat :=
  if cs ≠ [] ∧ cs.all Char.isDigit then some (digitsToNat cs) else none

/-- Modelled after `datetime.strptime(s, "%d.%m.%Y. %H:%M:%S")` on the
texts this page carries: day, month, 4-digit year with a trailing dot,
then hours, minutes, seconds; out-of-range components fail. -/
def parseSdcDateTime (s : String) : Option PyDateTime :=
  match splitOnChar ' ' s.toList with
  | [datePart, timePart] =>
    (match splitOnChar '.' datePart, splitOnChar ':' timePart with
     | [dStr, mStr, yStr, tail], [hStr, miStr, sStr] =>
       if tail = [] ∧ dStr.length ≤ 2 ∧ mStr.length ≤ 2 ∧ yStr.length ≤ 4 then
         match parseNatDigits dStr, parseNatDigits mStr, parseNatDigits yStr,
             parseNatDigits hStr, parseNatDigits miStr, parseNatDigits sStr with
         | some dd, some mm, some yy, some hh, some mi, some ss =>
           if 1 ≤ dd ∧ dd ≤ 31 ∧ 1 ≤ mm ∧ mm ≤ 12 ∧ hh ≤ 23 ∧ mi ≤ 59 ∧ ss ≤ 59 then
             some ⟨yy, mm, dd, hh, mi, ss⟩
           else none
         | _, _, _, _, _, _ => none
       else none
     | _, _ => none)
  | _ => none

/-- `FiscalParser._extract_sdc_date_time`: parse the timestamp label;
missing element or a failed parse yields `datetime.now()`, passed in here
as `now`. -/
def extractSdcDateTime (soup : Node) (now : PyDateTime) : PyDateTime :=
  match findFirst soup (hasIdB "span" "sdcDateTimeLabel") with
  | some el => (parseSdcDateTime (getTextStripN el)).getD now
  | none => now

/-- `FiscalParser._extract_buyer_id`: non-empty text or `None`. -/
def extractBuyerId (soup : Node) : Option String :=
  let t := extractLabeled soup "span" "buyerIdLabel"
  if t ≠ "" then some t else none

/-- `FiscalParser._parse_html_content`: assemble the `SerbianFiscalData`
dict field by field.  The only extractors that can raise are the two
`int(...)` counters; every other field defaults to the empty string, zero,
`None` or `datetime.now()` when its element is missing. -/
def parseHtmlContent (soup : Node) (now : PyDateTime) : Except String SerbianFiscalData := do
  let ttc ← extractCounter soup "transactionTypeCounterLabel"
  let tc ← extractCounter soup "totalCounterLabel"
  pure
    { tin := extractLabeled soup "span" "tinLabel"
      shop_name := extractLabeled soup "span" "shopFullNameLabel"
      shop_address := extractLabeled soup "span" "addressLabel"
      city := extractLabeled soup "span" "cityLabel"
      administrative_unit := extractLabeled soup "span" "administrativeUnitLabel"
      invoice_number := extractLabeled soup "span" "invoiceNumberLabel"
      total_amount := extractTotalAmount soup
      transaction_type_counter := ttc
      total_counter := tc
      invoice_counter_extension := extractLabeled soup "span" "invoiceCounterExtensionLabel"
      signed_by := extractLabeled soup "span" "signedByLabel"
      sdc_date_time := extractSdcDateTime soup now
      buyer_id := extractBuyerId soup
      requested_by := extractLabeled soup "span" "requestedByLabel"
      invoice_type := extractLabeled soup "span" "invoiceTypeId"
      transaction_type := extractLabeled soup "span" "transactionTypeId"
      status := extractLabeled soup "label" "invoiceStatusLabel"
      items := extractItemsFromTable soup }

/-- An empty/fully degraded document: no matching elements at all. -/
def emptyDom : Node := .elem "html" [] []

end Fiskal

namespace Fiskal

/-- Decidable equality of `Except` results, so that concrete runs of the
embedded fallible functions can be checked by evaluation. -/
instance exceptDecEq {ε α : Type} [DecidableEq ε] [DecidableEq α] :
    DecidableEq (Except ε α) := fun a b =>
  match a, b with
  | .ok x, .ok y =>
    if h : x = y then isTrue (by subst h; rfl)
    else isFalse (fun c => h (Except.ok.inj c))
  | .ok _, .error _ => isFalse (fun c => Except.noConfusion c)
  | .error _, .ok _ => isFalse (fun c => Except.noConfusion c)
  | .error x, .error y =>
    if h : x = y then isTrue (by subst h; rfl)
    else isFalse (fun c => h (Except.error.inj c))

end Fiskal

namespace Fiskal

/-- Aggregated VAT for one category over an item list: the sum of the
per-item flat-rate VAT amounts of the items in that category. -/
def sumVat (items : List Item) (k : Int) : Int :=
  ((items.filter (fun it => it.nds = k)).map (fun it => ndsAmount it.nds it.sum)).sum

/-- The distinct VAT categories of an item list in first-occurrence order
(the insertion order of the converter's `nds_amounts` dict). -/
def dedupKeys (items : List Item) : List Int :=
  items.foldl (fun ks it => if ks.contains it.nds then ks else ks ++ [it.nds]) []

/-- A `<td>` cell holding one text. -/
def tdCell (s : String) : Node := .elem "td" [] [.txt s]

/-- A four-cell item row. -/
def itemRow (name q p t : String) : Node :=
  .elem "tr" [] [tdCell name, tdCell q, tdCell p, tdCell t]

/-- A document holding both a Knockout-bound `tbody` with one item row and
a plain table with two further item-like rows: the generic table scan sees
three rows, the binding strategy one. -/
def mixedDom : Node := .elem "html" []
  [ .elem "table" []
      [.elem "tbody" [("data-bind", "foreach: Specifications")]
        [itemRow "Хлеб" "1,00" "79,99" "79,99"]],
    .elem "table" []
      [.elem "tbody" []
        [itemRow "ExtraA" "1,00" "10,00" "10,00", itemRow "ExtraB" "2,00" "5,00" "10,00"]] ]

/-- The raw items of the spec's two-item scenario: qty 1 × 79.99 and
qty 1 × 1599.99. -/
def scenarioItems : List RawItem :=
  [ ⟨"Item A", ⟨100, 2⟩, ⟨7999, 2⟩, ⟨7999, 2⟩, 2, ⟨0, 0⟩, ⟨0, 0⟩, "Е"⟩,
    ⟨"Item B", ⟨100, 2⟩, ⟨159999, 2⟩, ⟨159999, 2⟩, 2, ⟨0, 0⟩, ⟨0, 0⟩, "Е"⟩ ]

/-- The spec's two-item scenario source receipt (total 1679.98). -/
def scenarioSrc : SerbianFiscalData :=
  ⟨"123456789", "Shop", "Addr", "City", "Unit", "42", ⟨167998, 2⟩, 1, 2, "", "signer",
    ⟨2024, 1, 2, 3, 4, 5⟩, none, "req", "Normal", "Sale", "OK", scenarioItems⟩

/-- The spec's zero-item scenario source receipt (total 100.00). -/
def emptyItemsSrc : SerbianFiscalData :=
  ⟨"123456789", "Shop", "Addr", "City", "Unit", "43", ⟨10000, 2⟩, 1, 2, "", "signer",
    ⟨2024, 1, 2, 3, 4, 5⟩, none, "req", "Normal", "Sale", "OK", []⟩

/-- A document whose transaction-type counter label carries non-numeric
text. -/
def badCounterDom : Node :=
  .elem "html" [] [.elem "span" [("id", "transactionTypeCounterLabel")] [.txt "abc"]]

/-- A fixed wall-clock instant for concrete runs. -/
def nowW : PyDateTime := ⟨2025, 6, 7, 8, 9, 10⟩

/-- The fully degraded source receipt `_parse_html_content` assembles from
a document with no recognizable elements. -/
def degradedSrc (now : PyDateTime) : SerbianFiscalData :=
  ⟨"", "", "", "", "", "", ⟨0, 0⟩, 0, 0, "", "", now, none, "", "", "", "", []⟩

end Fiskal

namespace Fiskal

theorem exceptBind_error {ε α β : Type} (e : ε) (g : α → Except ε β) :
    (Except.error e >>= g) = .error e := rfl

theorem exceptBind_ok {ε α β : Type} (a : α) (g : α → Except ε β) :
    (Except.ok a >>= g) = g a := rfl

theorem exceptPure {ε α : Type} (a : α) : (pure a : Except ε α) = .ok a := rfl

theorem mkItem_ok {n : String} {q p s nds pt prt : Int} {it : Item}
    (h : mkItem n q p s nds pt prt = .ok it) :
    it = ⟨n, q, p, s, nds, pt, prt⟩ ∧ |s - q * p| ≤ 5 := by
  unfold mkItem at h
  split at h
  · cases h
  · next hc => cases h; exact ⟨rfl, not_lt.mp hc⟩

theorem mkItem_error {n : String} {q p s : Int} (nds pt prt : Int) (h : 5 < |s - q * p|) :
    mkItem n q p s nds pt prt =
      .error ("Сумма " ++ toString s ++ " не соответствует количеству " ++
        toString q ++ " * цена " ++ toString p) := by
  unfold mkItem
  rw [if_pos h]

theorem placeholderItem_ok (t : Dec) :
    placeholderItem t = .ok ⟨"Товары/услуги", 1, toCents t, toCents t, 2, 1, 1⟩ := by
  unfold placeholderItem mkItem
  rw [if_neg]
  simp

theorem mkReceipt_ok {code : Int} {dateTime : String} {fiscalDocumentNumber : Int}
    {fiscalDriveNumber : String} {fiscalSign : Int} {fnsUrl kktRegId : String}
    {totalSum ecashTotalSum operationType taxationType appliedTaxationType : Int}
    {user userInn retailPlace retailPlaceAddress : String} {items : List Item}
    {am : Option AmountsReceiptNds} {r : Receipt}
    (h : mkReceipt code dateTime fiscalDocumentNumber fiscalDriveNumber fiscalSign fnsUrl
      kktRegId totalSum ecashTotalSum operationType taxationType appliedTaxationType user
      userInn retailPlace retailPlaceAddress items am = .ok r) :
    r = { cashTotalSum := 0, code := code, creditSum := 0, dateTime := dateTime,
          ecashTotalSum := ecashTotalSum, fiscalDocumentFormatVer := 4,
          fiscalDocumentNumber := fiscalDocumentNumber,
          fiscalDriveNumber := fiscalDriveNumber, fiscalSign := fiscalSign,
          fnsUrl := fnsUrl, items := items, kktRegId := kktRegId, nds0 := 0,
          amountsReceiptNds := am, operationType := operationType, operator := none,
          prepaidSum := 0, provisionSum := 0, requestNumber := none,
          retailPlace := retailPlace, retailPlaceAddress := retailPlaceAddress,
          shiftNumber := none, taxationType := taxationType,
          appliedTaxationType := appliedTaxationType, totalSum := totalSum,
          user := user, userInn := userInn } ∧
      |totalSum - itemsSum items| ≤ 5 := by
  unfold mkReceipt at h
  split at h
  · cases h
  · next hc => cases h; exact ⟨rfl, not_lt.mp hc⟩

theorem mkReceipt_error {code : Int} {dateTime : String} {fiscalDocumentNumber : Int}
    {fiscalDriveNumber : String} {fiscalSign : Int} {fnsUrl kktRegId : String}
    {totalSum ecashTotalSum operationType taxationType appliedTaxationType : Int}
    {user userInn retailPlace retailPlaceAddress : String} {items : List Item}
    {am : Option AmountsReceiptNds} (h : 5 < |totalSum - itemsSum items|) :
    mkReceipt code dateTime fiscalDocumentNumber fiscalDriveNumber fiscalSign fnsUrl
      kktRegId totalSum ecashTotalSum operationType taxationType appliedTaxationType user
      userInn retailPlace retailPlaceAddress items am =
      .error ("Общая сумма " ++ toString totalSum ++
        " не соответствует сумме товаров " ++ toString (itemsSum items)) := by
  unfold mkReceipt
  rw [if_pos h]

theorem mapM_ok_forall₂ {α β : Type} (f : α → Except String β) :
    ∀ (xs : List α) (ys : List β), xs.mapM f = .ok ys →
      List.Forall₂ (fun x y => f x = .ok y) xs ys := by
  intro xs
  induction xs with
  | nil =>
    intro ys h
    rw [List.mapM_nil, exceptPure] at h
    cases h
    exact .nil
  | cons a as ih =>
    intro ys h
    rw [List.mapM_cons] at h
    cases hfa : f a with
    | error e => rw [hfa, exceptBind_error] at h; cases h
    | ok b =>
      rw [hfa, exceptBind_ok] at h
      cases hrest : as.mapM f with
      | error e => rw [hrest, exceptBind_error] at h; cases h
      | ok bs =>
        rw [hrest, exceptBind_ok, exceptPure] at h
        cases h
        exact .cons hfa (ih bs hrest)

end Fiskal

namespace Fiskal

theorem exceptBind_ok_inv {ε α β : Type} {x : Except ε α} {g : α → Except ε β} {b : β}
    (h : (x >>= g) = .ok b) : ∃ a, x = .ok a ∧ g a = .ok b := by
  cases x with
  | error e => rw [exceptBind_error] at h; cases h
  | ok a => rw [exceptBind_ok] at h; exact ⟨a, rfl, h⟩

theorem exceptBind_error_inv {ε α β : Type} {x : Except ε α} {g : α → Except ε β} {e : ε}
    (h : (x >>= g) = .error e) : x = .error e ∨ ∃ a, x = .ok a ∧ g a = .error e := by
  cases x with
  | error e' => rw [exceptBind_error] at h; cases h; exact Or.inl rfl
  | ok a => rw [exceptBind_ok] at h; exact Or.inr ⟨a, rfl, h⟩

theorem convert_ok_spec {d : SerbianFiscalData} {id : String} {fd : FiscalData}
    (h : convert d id = .ok fd) :
    ∃ items : List Item,
      ((d.items.mapM convertRawItem = .ok items ∧ items ≠ []) ∨
        (d.items.mapM convertRawItem = .ok [] ∧
          items = [⟨"Товары/услуги", 1, toCents d.total_amount, toCents d.total_amount, 2, 1, 1⟩])) ∧
      |toCents d.total_amount - itemsSum items| ≤ 5 ∧
      fd = ⟨some id, some (strftimeIso d.sdc_date_time ++ "+00:00"),
        ⟨⟨{ cashTotalSum := 0, code := 3, creditSum := 0,
            dateTime := strftimeIso d.sdc_date_time,
            ecashTotalSum := toCents d.total_amount, fiscalDocumentFormatVer := 4,
            fiscalDocumentNumber := d.total_counter,
            fiscalDriveNumber := "0000000000000000",
            fiscalSign := d.transaction_type_counter, fnsUrl := "www.nalog.gov.rs",
            items := items, kktRegId := d.tin, nds0 := 0,
            amountsReceiptNds :=
              (if (ndsBuckets items).isEmpty then none else some ⟨ndsBuckets items⟩),
            operationType := 1, operator := none, prepaidSum := 0, provisionSum := 0,
            requestNumber := none, retailPlace := d.shop_name,
            retailPlaceAddress := d.shop_address ++ ", " ++ d.city, shiftNumber := none,
            taxationType := 2, appliedTaxationType := 2, totalSum := toCents d.total_amount,
            user := d.shop_name, userInn := d.tin }⟩⟩⟩ := by
  unfold convert at h
  obtain ⟨items0, h0, h⟩ := exceptBind_ok_inv h
  simp only at h
  by_cases he : items0.isEmpty = true
  · rw [if_pos he] at h
    rw [placeholderItem_ok] at h
    rw [exceptBind_ok, exceptPure, exceptBind_ok] at h
    obtain ⟨receipt, hr, h⟩ := exceptBind_ok_inv h
    obtain ⟨hrec, hbound⟩ := mkReceipt_ok hr
    rw [exceptPure] at h
    cases h
    subst hrec
    refine ⟨_, Or.inr ⟨?_, rfl⟩, by simp [itemsSum], rfl⟩
    rwa [List.isEmpty_iff.mp he] at h0
  · rw [if_neg he] at h
    rw [exceptPure, exceptBind_ok] at h
    obtain ⟨receipt, hr, h⟩ := exceptBind_ok_inv h
    obtain ⟨hrec, hbound⟩ := mkReceipt_ok hr
    rw [exceptPure] at h
    cases h
    subst hrec
    exact ⟨items0, Or.inl ⟨h0, by simpa [List.isEmpty_iff] using he⟩, hbound, rfl⟩

theorem convert_error_indep {d : SerbianFiscalData} {a b : String} {e : String}
    (h : convert d a = .error e) : convert d b = .error e := by
  unfold convert at h ⊢
  cases h0 : d.items.mapM convertRawItem with
  | error e' =>
    rw [h0] at h
    rw [exceptBind_error] at h ⊢
    exact h
  | ok items0 =>
    rw [h0] at h
    rw [exceptBind_ok] at h ⊢
    simp only at h ⊢
    by_cases he : items0.isEmpty = true
    · rw [if_pos he] at h ⊢
      rw [placeholderItem_ok, exceptBind_ok, exceptPure, exceptBind_ok] at h ⊢
      rcases exceptBind_error_inv h with hmk | ⟨r, _, hpure⟩
      · rw [hmk, exceptBind_error]
      · rw [exceptPure] at hpure; cases hpure
    · rw [if_neg he] at h ⊢
      rw [exceptPure, exceptBind_ok] at h ⊢
      rcases exceptBind_error_inv h with hmk | ⟨r, _, hpure⟩
      · rw [hmk, exceptBind_error]
      · rw [exceptPure] at hpure; cases hpure

theorem convert_nilItems (d : SerbianFiscalData) (id : String) (h : d.items = []) :
    convert d id = .ok ⟨some id, some (strftimeIso d.sdc_date_time ++ "+00:00"),
      ⟨⟨{ cashTotalSum := 0, code := 3, creditSum := 0,
          dateTime := strftimeIso d.sdc_date_time,
          ecashTotalSum := toCents d.total_amount, fiscalDocumentFormatVer := 4,
          fiscalDocumentNumber := d.total_counter,
          fiscalDriveNumber := "0000000000000000",
          fiscalSign := d.transaction_type_counter, fnsUrl := "www.nalog.gov.rs",
          items := [⟨"Товары/услуги", 1, toCents d.total_amount, toCents d.total_amount, 2, 1, 1⟩],
          kktRegId := d.tin, nds0 := 0,
          amountsReceiptNds :=
            (if (ndsBuckets [⟨"Товары/услуги", 1, toCents d.total_amount,
                toCents d.total_amount, 2, 1, 1⟩]).isEmpty then none
             else some ⟨ndsBuckets [⟨"Товары/услуги", 1, toCents d.total_amount,
                toCents d.total_amount, 2, 1, 1⟩]⟩),
          operationType := 1, operator := none, prepaidSum := 0, provisionSum := 0,
          requestNumber := none, retailPlace := d.shop_name,
          retailPlaceAddress := d.shop_address ++ ", " ++ d.city, shiftNumber := none,
          taxationType := 2, appliedTaxationType := 2, totalSum := toCents d.total_amount,
          user := d.shop_name, userInn := d.tin }⟩⟩⟩ := by
  unfold convert
  rw [h, List.mapM_nil, exceptPure, exceptBind_ok]
  simp only
  split
  · rw [placeholderItem_ok, exceptBind_ok, exceptPure, exceptBind_ok]
    unfold mkReceipt
    rw [if_neg (by simp [itemsSum])]
    rw [exceptBind_ok, exceptPure]
  · next hc => exact absurd rfl hc

end Fiskal

namespace Fiskal

theorem ndsAmountsOf_append (items : List Item) (it : Item) :
    ndsAmountsOf (items ++ [it]) = addVat (ndsAmountsOf items) it.nds (ndsAmount it.nds it.sum) := by
  unfold ndsAmountsOf
  rw [List.foldl_append]
  rfl

theorem dedupKeys_append (items : List Item) (it : Item) :
    dedupKeys (items ++ [it]) =
      if (dedupKeys items).contains it.nds then dedupKeys items
      else dedupKeys items ++ [it.nds] := by
  unfold dedupKeys
  rw [List.foldl_append]
  rfl

theorem sumVat_append (items : List Item) (it : Item) (k : Int) :
    sumVat (items ++ [it]) k =
      sumVat items k + (if it.nds = k then ndsAmount it.nds it.sum else 0) := by
  unfold sumVat
  rw [List.filter_append]
  by_cases hk : it.nds = k
  · simp [hk]
  · simp [hk]

theorem sumVat_nil (k : Int) : sumVat [] k = 0 := rfl

theorem mem_dedupKeys (items : List Item) (a : Int) :
    a ∈ dedupKeys items ↔ ∃ x ∈ items, x.nds = a := by
  induction items using List.reverseRecOn with
  | nil => simp [dedupKeys]
  | append_singleton items it ih =>
    rw [dedupKeys_append]
    by_cases hc : (dedupKeys items).contains it.nds = true
    · rw [if_pos hc]
      have hin : it.nds ∈ dedupKeys items := by
        simpa [List.contains] using hc
      simp only [List.mem_append, List.mem_singleton]
      constructor
      · intro ha
        exact ⟨(ih.mp ha).choose, Or.inl (ih.mp ha).choose_spec.1, (ih.mp ha).choose_spec.2⟩
      · rintro ⟨x, hx | hx, hnds⟩
        · exact ih.mpr ⟨x, hx, hnds⟩
        · subst hx; exact hnds ▸ hin
    · rw [if_neg hc]
      simp only [List.mem_append, List.mem_singleton]
      rw [ih]
      constructor
      · rintro (⟨x, hx, hnds⟩ | ha)
        · exact ⟨x, Or.inl hx, hnds⟩
        · exact ⟨it, Or.inr rfl, ha.symm⟩
      · rintro ⟨x, hx | hx, hnds⟩
        · exact Or.inl ⟨x, hx, hnds⟩
        · subst hx; exact Or.inr hnds.symm

end Fiskal
namespace Fiskal

theorem dedupKeys_nodup (items : List Item) : (dedupKeys items).Nodup := by
  induction items using List.reverseRecOn with
  | nil => simp [dedupKeys]
  | append_singleton items it ih =>
    rw [dedupKeys_append]
    by_cases hc : (dedupKeys items).contains it.nds = true
    · rw [if_pos hc]; exact ih
    · rw [if_neg hc]
      have hnm : it.nds ∉ dedupKeys items := by
        intro hmem
        exact hc (by simpa [List.contains] using hmem)
      simp [List.nodup_append, ih, hnm]

theorem any_fst_map (ks : List Int) (g : Int → Int) (a : Int) :
    ((ks.map (fun k => (k, g k))).any (fun p => p.1 = a)) = ks.contains a := by
  induction ks with
  | nil => rfl
  | cons k t ih =>
    by_cases hk : k = a
    · simp [hk, List.contains]
    · simp only [List.map_cons, List.any_cons, ih]
      simp [hk, List.contains, Ne.symm hk]

theorem sumVat_of_not_mem (items : List Item) (k : Int)
    (h : ∀ x ∈ items, x.nds ≠ k) : sumVat items k = 0 := by
  unfold sumVat
  rw [List.filter_eq_nil_iff.mpr (by intro x hx; simpa using h x hx)]
  rfl

theorem ndsAmountsOf_eq (items : List Item) :
    ndsAmountsOf items = (dedupKeys items).map (fun k => (k, sumVat items k)) := by
  induction items using List.reverseRecOn with
  | nil => rfl
  | append_singleton items it ih =>
    rw [ndsAmountsOf_append, dedupKeys_append, ih]
    unfold addVat
    by_cases hc : (dedupKeys items).contains it.nds = true
    · rw [if_pos (by rw [any_fst_map]; exact hc), if_pos hc]
      rw [List.map_map]
      refine List.map_congr_left ?_
      intro k hk
      by_cases hik : k = it.nds
      · simp [Function.comp, hik, sumVat_append, add_comm]
      · simp [Function.comp, hik, sumVat_append, Ne.symm hik]
    · rw [if_neg (by rw [any_fst_map]; exact hc), if_neg hc]
      rw [List.map_append]
      congr 1
      · refine List.map_congr_left ?_
        intro k hk
        have hik : it.nds ≠ k := by
          intro he
          exact hc (by simpa [List.contains, he] using hk)
        simp [sumVat_append, hik]
      · have hz : sumVat items it.nds = 0 := by
          refine sumVat_of_not_mem items it.nds ?_
          intro x hx he
          have : it.nds ∈ dedupKeys items := (mem_dedupKeys items it.nds).mpr ⟨x, hx, he⟩
          exact hc (by simpa [List.contains] using this)
        simp [sumVat_append, hz]

theorem filterMap_posBuckets (ks : List Int) (g : Int → Int) :
    ks.filterMap (fun k => if 0 < g k then some (⟨k, g k⟩ : AmountsNds) else none) =
      (ks.filter (fun k => 0 < g k)).map (fun k => ⟨k, g k⟩) := by
  induction ks with
  | nil => rfl
  | cons k t ih =>
    by_cases h : 0 < g k
    · simp [h, ih]
    · simp [h, ih]

theorem ndsBuckets_eq (items : List Item) :
    ndsBuckets items =
      ((dedupKeys items).filter (fun k => 0 < sumVat items k)).map
        (fun k => ⟨k, sumVat items k⟩) := by
  unfold ndsBuckets
  rw [ndsAmountsOf_eq, List.filterMap_map]
  exact filterMap_posBuckets (dedupKeys items) (sumVat items)

end Fiskal

namespace Fiskal

theorem cleanCode_eq_filterMap (l : List Char) : cleanCode l = l.filterMap cleanOne := by
  induction l with
  | nil => rfl
  | cons c t ih =>
    by_cases h1 : c = '.'
    · simp [cleanCode, cleanOne, h1] at ih ⊢; exact ih
    · by_cases h2 : c = ','
      · simp [cleanCode, cleanOne, h1, h2, keptByCode] at ih ⊢; exact ih
      · by_cases h3 : c.isDigit ∨ c = '-'
        · simp [cleanCode, cleanOne, h1, h2, h3, keptByCode] at ih ⊢; exact ih
        · have hd : ¬ c.isDigit := fun h => h3 (Or.inl h)
          have hm : ¬ c = '-' := fun h => h3 (Or.inr h)
          simp [cleanCode, cleanOne, h1, h2, h3, hd, hm, keptByCode] at ih ⊢; exact ih

theorem cleanSpecOrder_eq_filterMap (l : List Char) : cleanSpecOrder l = l.filterMap cleanOne := by
  induction l with
  | nil => rfl
  | cons c t ih =>
    by_cases h1 : c = '.'
    · simp [cleanSpecOrder, cleanOne, h1] at ih ⊢; exact ih
    · by_cases h2 : c = ','
      · simp [cleanSpecOrder, cleanOne, h1, h2] at ih ⊢; exact ih
      · by_cases h3 : c.isDigit ∨ c = '-'
        · rcases h3 with h3a | h3a
          · simp [cleanSpecOrder, cleanOne, h1, h2, h3a] at ih ⊢; exact ih
          · simp [cleanSpecOrder, cleanOne, h1, h2, h3a] at ih ⊢; exact ih
        · have hd : ¬ c.isDigit := fun h => h3 (Or.inl h)
          have hm : ¬ c = '-' := fun h => h3 (Or.inr h)
          simp [cleanSpecOrder, cleanOne, h1, h2, h3, hd, hm] at ih ⊢; exact ih

theorem clean_order_irrelevant (l : List Char) : cleanCode l = cleanSpecOrder l := by
  rw [cleanCode_eq_filterMap, cleanSpecOrder_eq_filterMap]

end Fiskal

namespace Fiskal

theorem exceptIsOk_exists {ε α : Type} {x : Except ε α} (h : x.isOk = true) :
    ∃ a, x = .ok a := by
  cases x with
  | error e => simp [Except.isOk, Except.toBool] at h
  | ok a => exact ⟨a, rfl⟩

theorem forall₂_mem_right {α β : Type} {R : α → β → Prop} :
    ∀ {xs : List α} {ys : List β}, List.Forall₂ R xs ys → ∀ {y}, y ∈ ys → ∃ x ∈ xs, R x y := by
  intro xs ys h
  induction h with
  | nil => intro y hy; cases hy
  | cons hR _ ih =>
    intro y hy
    rcases List.mem_cons.mp hy with hy | hy
    · subst hy; exact ⟨_, List.mem_cons_self _ _, hR⟩
    · obtain ⟨x, hx, hxy⟩ := ih hy
      exact ⟨x, List.mem_cons_of_mem _ hx, hxy⟩

end Fiskal

namespace Fiskal

set_option maxRecDepth 10000

/-- C1: the converter's minor-unit conversion is `int(float(x) * 100)` —
truncation toward zero of the binary64 product — not ×100 with half-up
rounding: at the price 79.99 the code yields 7998 where half-up (and the
code's own comment `# 79.99 -> 7999 копеек`) require 7999; on the spec's
two-item scenario the converted item sums are 7998 and 159999 with
totalSum 167998. -/
theorem c1_truncation_not_half_up :
    toCents ⟨7999, 2⟩ = 7998 ∧
    specHalfUpCents ⟨7999, 2⟩ = 7999 ∧
    toCents ⟨159999, 2⟩ = 159999 ∧
    (convert scenarioSrc "x").map
        (fun fd => (fd.ticket.document.receipt.totalSum,
          fd.ticket.document.receipt.items.map (fun it => it.sum))) =
      .ok (167998, [7998, 159999]) := by
  refine ⟨by decide, by decide, by decide, by decide⟩

/-- C2: every TargetReceipt produced by `convert` satisfies
`|totalSum − Σ item.sum| ≤ 5` minor units, and a candidate Receipt whose
fields violate the bound is rejected by the `validate_total_sum` validator
with an error, so no receipt is returned. -/
theorem c2_total_reconciliation :
    (∀ (d : SerbianFiscalData) (id : String) (fd : FiscalData), convert d id = .ok fd →
      |fd.ticket.document.receipt.totalSum - itemsSum fd.ticket.document.receipt.items| ≤ 5) ∧
    (∀ (code : Int) (dateTime : String) (fdn : Int) (fdrv : String) (fs : Int)
        (fns kkt : String) (totalSum ecash op tax atax : Int)
        (user uinn rp rpa : String) (items : List Item) (am : Option AmountsReceiptNds),
      5 < |totalSum - itemsSum items| →
      mkReceipt code dateTime fdn fdrv fs fns kkt totalSum ecash op tax atax user
          uinn rp rpa items am =
        .error ("Общая сумма " ++ toString totalSum ++ " не соответствует сумме товаров " ++
          toString (itemsSum items))) := by
  constructor
  · intro d id fd h
    obtain ⟨items, _, hbound, hfd⟩ := convert_ok_spec h
    subst hfd
    exact hbound
  · intro code dateTime fdn fdrv fs fns kkt totalSum ecash op tax atax user uinn rp rpa
      items am h
    exact mkReceipt_error h

theorem c2_witness :
    (match convert scenarioSrc "x" with
     | .ok fd =>
       |fd.ticket.document.receipt.totalSum - itemsSum fd.ticket.document.receipt.items| ≤ 5
     | .error _ => False) ∧
    mkReceipt 3 "t" 1 "f" 1 "u" "k" 100 100 1 2 2 "a" "b" "c" "d" [] none =
      .error ("Общая сумма " ++ toString (100 : Int) ++ " не соответствует сумме товаров " ++
        toString (itemsSum ([] : List Item))) := by
  constructor
  · cases hc : convert scenarioSrc "x" with
    | ok fd => exact c2_total_reconciliation.1 scenarioSrc "x" fd hc
    | error e =>
      have hok : (convert scenarioSrc "x").isOk = true := by decide
      rw [hc] at hok
      simp [Except.isOk, Except.toBool] at hok
  · exact c2_total_reconciliation.2 3 "t" 1 "f" 1 "u" "k" 100 100 1 2
      2 "a" "b" "c" "d" [] none (by decide)

end Fiskal

namespace Fiskal

set_option maxRecDepth 10000

/-- C3: the number normalizer is a total function (its Lean type is
`String → Dec`, no exception path); its cleaning pipeline — drop dots, turn
commas into dots, strip everything outside digits/dot/minus — computes the
same characters in the code's order and in the spec's order (strip first);
and on the spec's examples: `"1.839,96" → 1839.96`, `"0,50" → 0.50`,
`"" → 0`, `"-" → 0`. -/
theorem c3_normalizer_total :
    (∀ l : List Char, cleanCode l = cleanSpecOrder l) ∧
    (parseSerbianNumber "1.839,96").val = (1839.96 : ℚ) ∧
    (parseSerbianNumber "0,50").val = (0.50 : ℚ) ∧
    (parseSerbianNumber "").val = 0 ∧
    (parseSerbianNumber "-").val = 0 := by
  refine ⟨clean_order_irrelevant, ?_, ?_, ?_, ?_⟩
  · rw [show parseSerbianNumber "1.839,96" = ⟨183996, 2⟩ from by decide]
    norm_num [Dec.val]
  · rw [show parseSerbianNumber "0,50" = ⟨50, 2⟩ from by decide]
    norm_num [Dec.val]
  · rw [show parseSerbianNumber "" = ⟨0, 0⟩ from by decide]
    norm_num [Dec.val]
  · rw [show parseSerbianNumber "-" = ⟨0, 0⟩ from by decide]
    norm_num [Dec.val]

/-- C4: `_extract_items_from_table` evaluates the strategies in the fixed
order bindings → generic table → free text, returning the first non-empty
item list; in particular whenever the structured-binding strategy yields a
non-empty list (as on any DOM with populated `Specifications` bindings),
the result is exactly that list, regardless of what the generic table scan
would report. -/
theorem c4_strategy_precedence :
    (∀ soup : Node, extractItemsFromTable soup =
      if knockoutItems soup ≠ [] then knockoutItems soup
      else if tableItems soup ≠ [] then tableItems soup
      else textItems soup) ∧
    (∀ soup : Node, knockoutItems soup ≠ [] →
      extractItemsFromTable soup = knockoutItems soup) := by
  constructor
  · intro soup
    rfl
  · intro soup h
    unfold extractItemsFromTable
    rw [if_pos h]

theorem c4_witness :
    knockoutItems mixedDom ≠ [] ∧
    (knockoutItems mixedDom).length = 1 ∧
    (tableItems mixedDom).length = 3 ∧
    extractItemsFromTable mixedDom = knockoutItems mixedDom :=
  ⟨by decide, by decide, by decide, c4_strategy_precedence.2 mixedDom (by decide)⟩

/-- C5: a SourceReceipt with an empty item list always converts
successfully into a TargetReceipt holding exactly one synthesized
placeholder item whose price and sum equal the converted receipt total
(VAT category 2); with `total_amount = 100.00` the placeholder's sum is
10000 minor units. -/
theorem c5_placeholder_item :
    (∀ (d : SerbianFiscalData) (id : String), d.items = [] →
      ∃ fd, convert d id = .ok fd ∧
        fd.ticket.document.receipt.items =
          [⟨"Товары/услуги", 1, toCents d.total_amount, toCents d.total_amount, 2, 1, 1⟩] ∧
        fd.ticket.document.receipt.totalSum = toCents d.total_amount) ∧
    toCents ⟨10000, 2⟩ = 10000 := by
  constructor
  · intro d id h
    exact ⟨_, convert_nilItems d id h, rfl, rfl⟩
  · decide

theorem c5_witness :
    emptyItemsSrc.items = [] ∧
    ∃ fd, convert emptyItemsSrc "w" = .ok fd ∧
      fd.ticket.document.receipt.items.map (fun it => it.sum) = [10000] := by
  refine ⟨rfl, ?_⟩
  obtain ⟨fd, hok, hitems, _⟩ := c5_placeholder_item.1 emptyItemsSrc "w" rfl
  refine ⟨fd, hok, ?_⟩
  rw [hitems]
  decide

end Fiskal

namespace Fiskal

set_option maxRecDepth 10000

/-- C6 counterexample: scalar field extraction can raise — a document whose
transaction-type counter label is present but non-numeric makes
`_parse_html_content` raise the `int()` `ValueError` instead of defaulting,
so "for every HTML input, scalar field extraction never raises" is false on
the code. -/
theorem c6_counterexample :
    parseHtmlContent badCounterDom nowW =
      .error "invalid literal for int() with base 10: abc" := by
  decide

/-- C6 (amended): scalar extraction succeeds on every document whose two
counter labels, when present, carry `int()`-parseable text (all other
fields default to empty string, zero, `None` or the current time and never
raise); empty/element-free HTML yields the fully degraded SourceReceipt,
and that degraded receipt still converts successfully into a TargetReceipt
holding a single zero-amount placeholder item. -/
theorem c6_degraded_extraction :
    (∀ (soup : Node) (now : PyDateTime),
      (extractCounter soup "transactionTypeCounterLabel").isOk = true →
      (extractCounter soup "totalCounterLabel").isOk = true →
      ∃ d, parseHtmlContent soup now = .ok d) ∧
    (∀ now : PyDateTime, parseHtmlContent emptyDom now = .ok (degradedSrc now)) ∧
    (∀ (now : PyDateTime) (id : String),
      ∃ fd, convert (degradedSrc now) id = .ok fd ∧
        fd.ticket.document.receipt.items = [⟨"Товары/услуги", 1, 0, 0, 2, 1, 1⟩] ∧
        fd.ticket.document.receipt.totalSum = 0) := by
  refine ⟨?_, ?_, ?_⟩
  · intro soup now h1 h2
    obtain ⟨n1, hn1⟩ := exceptIsOk_exists h1
    obtain ⟨n2, hn2⟩ := exceptIsOk_exists h2
    unfold parseHtmlContent
    rw [hn1, exceptBind_ok, hn2, exceptBind_ok, exceptPure]
    exact ⟨_, rfl⟩
  · intro now
    rfl
  · intro now id
    exact ⟨_, convert_nilItems (degradedSrc now) id rfl, rfl, rfl⟩

theorem c6_witness :
    (∃ d, parseHtmlContent emptyDom nowW = .ok d) ∧
    (∃ fd, convert (degradedSrc nowW) "w2" = .ok fd ∧
      fd.ticket.document.receipt.items = [⟨"Товары/услуги", 1, 0, 0, 2, 1, 1⟩] ∧
      fd.ticket.document.receipt.totalSum = 0) :=
  ⟨c6_degraded_extraction.1 emptyDom nowW (by decide) (by decide),
    c6_degraded_extraction.2.2 nowW "w2"⟩

/-- C7: every Item accepted by the `validate_sum` validator satisfies
`|sum − quantity × price| ≤ 5` minor units; a violating candidate is
rejected with the typed error message naming the offending sum, quantity
and price (fail-closed, no silent correction); and every line item of a
receipt produced by `convert` satisfies the bound. -/
theorem c7_item_reconciliation :
    (∀ (n : String) (q p s nds pt prt : Int) (it : Item),
      mkItem n q p s nds pt prt = .ok it → |it.sum - it.quantity * it.price| ≤ 5) ∧
    (∀ (n : String) (q p s nds pt prt : Int), 5 < |s - q * p| →
      mkItem n q p s nds pt prt =
        .error ("Сумма " ++ toString s ++ " не соответствует количеству " ++
          toString q ++ " * цена " ++ toString p)) ∧
    (∀ (d : SerbianFiscalData) (id : String) (fd : FiscalData), convert d id = .ok fd →
      ∀ it ∈ fd.ticket.document.receipt.items, |it.sum - it.quantity * it.price| ≤ 5) := by
  refine ⟨?_, ?_, ?_⟩
  · intro n q p s nds pt prt it h
    obtain ⟨he, hb⟩ := mkItem_ok h
    subst he
    exact hb
  · intro n q p s nds pt prt h
    exact mkItem_error nds pt prt h
  · intro d id fd h it hit
    obtain ⟨items, hcase, _, hfd⟩ := convert_ok_spec h
    subst hfd
    rcases hcase with ⟨hmap, _⟩ | ⟨_, hitems⟩
    · obtain ⟨x, _, hx⟩ := forall₂_mem_right (mapM_ok_forall₂ convertRawItem d.items items hmap) hit
      obtain ⟨he, hb⟩ := mkItem_ok hx
      subst he
      exact hb
    · subst hitems
      rcases List.mem_singleton.mp hit with rfl
      simp

theorem c7_witness :
    |(⟨"x", 1, 10, 10, 2, 4, 1⟩ : Item).sum -
        (⟨"x", 1, 10, 10, 2, 4, 1⟩ : Item).quantity * (⟨"x", 1, 10, 10, 2, 4, 1⟩ : Item).price| ≤ 5 ∧
    mkItem "y" 2 10 100 2 4 1 =
      .error ("Сумма " ++ toString (100 : Int) ++ " не соответствует количеству " ++
        toString (2 : Int) ++ " * цена " ++ toString (10 : Int)) :=
  ⟨c7_item_reconciliation.1 "x" 1 10 10 2 4 1 ⟨"x", 1, 10, 10, 2, 4, 1⟩ (by decide),
    c7_item_reconciliation.2.1 "y" 2 10 100 2 4 1 (by decide)⟩

end Fiskal

namespace Fiskal

set_option maxRecDepth 10000

/-- C8: per item the converter computes VAT as the fixed flat rate of the
item's sum selected by its category (`int(sum * 0.1)` for category 2,
`int(sum * 0.2)` for category 3, zero otherwise — `ndsAmount`); the
per-item amounts are aggregated into exactly one bucket per category
(first-occurrence order, distinct keys), each kept bucket carries the
category's aggregated amount, and every bucket whose aggregated amount is
not positive — in particular zero — is omitted. -/
theorem c8_vat_buckets :
    (∀ (d : SerbianFiscalData) (id : String) (fd : FiscalData), convert d id = .ok fd →
      fd.ticket.document.receipt.amountsReceiptNds =
        (if (ndsBuckets fd.ticket.document.receipt.items).isEmpty then none
         else some ⟨ndsBuckets fd.ticket.document.receipt.items⟩)) ∧
    (∀ items : List Item, ndsBuckets items =
      ((dedupKeys items).filter (fun k => 0 < sumVat items k)).map
        (fun k => ⟨k, sumVat items k⟩)) ∧
    (∀ items : List Item, ((ndsBuckets items).map (fun b => b.nds)).Nodup) ∧
    (∀ (items : List Item) (b : AmountsNds), b ∈ ndsBuckets items →
      b.ndsSum = sumVat items b.nds ∧ 0 < b.ndsSum ∧ ∃ it ∈ items, it.nds = b.nds) := by
  refine ⟨?_, ndsBuckets_eq, ?_, ?_⟩
  · intro d id fd h
    obtain ⟨items, _, _, hfd⟩ := convert_ok_spec h
    subst hfd
    rfl
  · intro items
    rw [ndsBuckets_eq, List.map_map]
    have : ((fun b : AmountsNds => b.nds) ∘ fun k => (⟨k, sumVat items k⟩ : AmountsNds)) =
        fun k => k := rfl
    rw [this]
    simpa using (dedupKeys_nodup items).filter _
  · intro items b hb
    rw [ndsBuckets_eq] at hb
    obtain ⟨k, hk, rfl⟩ := List.mem_map.mp hb
    have hmem := List.mem_filter.mp hk
    refine ⟨rfl, by simpa using hmem.2, (mem_dedupKeys items k).mp hmem.1⟩

theorem c8_witness :
    ((⟨2, 16798⟩ : AmountsNds).ndsSum =
        sumVat [⟨"Item A", 1, 7998, 7998, 2, 4, 1⟩, ⟨"Item B", 1, 159999, 159999, 2, 4, 1⟩]
          (⟨2, 16798⟩ : AmountsNds).nds ∧
      0 < (⟨2, 16798⟩ : AmountsNds).ndsSum ∧
      ∃ it ∈ [(⟨"Item A", 1, 7998, 7998, 2, 4, 1⟩ : Item), ⟨"Item B", 1, 159999, 159999, 2, 4, 1⟩],
        it.nds = (⟨2, 16798⟩ : AmountsNds).nds) ∧
    (match convert scenarioSrc "x" with
     | .ok fd =>
       fd.ticket.document.receipt.amountsReceiptNds =
         (if (ndsBuckets fd.ticket.document.receipt.items).isEmpty then none
          else some ⟨ndsBuckets fd.ticket.document.receipt.items⟩)
     | .error _ => False) := by
  constructor
  · exact c8_vat_buckets.2.2.2
      [⟨"Item A", 1, 7998, 7998, 2, 4, 1⟩, ⟨"Item B", 1, 159999, 159999, 2, 4, 1⟩]
      ⟨2, 16798⟩ (by decide)
  · cases hc : convert scenarioSrc "x" with
    | ok fd => exact c8_vat_buckets.1 scenarioSrc "x" fd hc
    | error e =>
      have hok : (convert scenarioSrc "x").isOk = true := by decide
      rw [hc] at hok
      simp [Except.isOk, Except.toBool] at hok

/-- C9: conversion is deterministic up to the correlation id — two
successful runs on the same SourceReceipt agree on the whole ticket
(totals, items, VAT buckets) and on the creation timestamp, which is the
source document's `sdc_date_time` rendered in ISO form (no wall clock
enters `convert`); failing runs fail identically. -/
theorem c9_deterministic_up_to_id :
    (∀ (d : SerbianFiscalData) (a b : String) (fd₁ fd₂ : FiscalData),
      convert d a = .ok fd₁ → convert d b = .ok fd₂ →
      fd₁.ticket = fd₂.ticket ∧ fd₁.created_at = fd₂.created_at ∧
      fd₁.created_at = some (strftimeIso d.sdc_date_time ++ "+00:00") ∧
      fd₁.id = some a ∧ fd₂.id = some b) ∧
    (∀ (d : SerbianFiscalData) (a b e : String),
      convert d a = .error e → convert d b = .error e) := by
  constructor
  · intro d a b fd₁ fd₂ h₁ h₂
    obtain ⟨items₁, hc₁, _, hfd₁⟩ := convert_ok_spec h₁
    obtain ⟨items₂, hc₂, _, hfd₂⟩ := convert_ok_spec h₂
    have hi : items₁ = items₂ := by
      rcases hc₁ with ⟨hm₁, hne₁⟩ | ⟨hm₁, he₁⟩ <;>
        rcases hc₂ with ⟨hm₂, hne₂⟩ | ⟨hm₂, he₂⟩
      · exact Except.ok.inj (hm₁.symm.trans hm₂)
      · exact absurd (Except.ok.inj (hm₁.symm.trans hm₂)) hne₁
      · exact absurd (Except.ok.inj (hm₂.symm.trans hm₁)) hne₂
      · rw [he₁, he₂]
    subst hi
    subst hfd₁
    subst hfd₂
    exact ⟨rfl, rfl, rfl, rfl, rfl⟩
  · intro d a b e h
    exact convert_error_indep h

theorem c9_witness :
    (match convert scenarioSrc "idA", convert scenarioSrc "idB" with
     | .ok fd₁, .ok fd₂ =>
       fd₁.ticket = fd₂.ticket ∧ fd₁.created_at = fd₂.created_at ∧
       fd₁.created_at = some (strftimeIso scenarioSrc.sdc_date_time ++ "+00:00") ∧
       fd₁.id = some "idA" ∧ fd₂.id = some "idB"
     | _, _ => False) := by
  cases hc₁ : convert scenarioSrc "idA" with
  | error e =>
    have hok : (convert scenarioSrc "idA").isOk = true := by decide
    rw [hc₁] at hok
    simp [Except.isOk, Except.toBool] at hok
  | ok fd₁ =>
    cases hc₂ : convert scenarioSrc "idB" with
    | error e =>
      have hok : (convert scenarioSrc "idB").isOk = true := by decide
      rw [hc₂] at hok
      simp [Except.isOk, Except.toBool] at hok
    | ok fd₂ =>
      exact c9_deterministic_up_to_id.1 scenarioSrc "idA" "idB" fd₁ fd₂ hc₁ hc₂

/-- C10: the converter turns each source quantity into an integer by
`int(float(q))` — truncation toward zero — before the `validate_sum`
reconciliation check runs on the truncated value, while price and sum are
scaled to minor units; 1.00 becomes 1, 0.5 becomes 0, and a fractional
quantity of 0.5 at price 100.00 with sum 50.00 is consequently rejected by
the check (0 × 10000 vs 5000). -/
theorem c10_quantity_truncation :
    (∀ raw : RawItem, convertRawItem raw =
      mkItem raw.name (truncQuantity raw.quantity) (toCents raw.price) (toCents raw.sum)
        raw.nds_type 4 1) ∧
    (∀ (raw : RawItem) (it : Item), convertRawItem raw = .ok it →
      it.quantity = truncQuantity raw.quantity ∧ it.price = toCents raw.price ∧
        it.sum = toCents raw.sum) ∧
    truncQuantity ⟨100, 2⟩ = 1 ∧ truncQuantity ⟨5, 1⟩ = 0 ∧ truncQuantity ⟨-15, 1⟩ = -1 ∧
    convertRawItem ⟨"x", ⟨5, 1⟩, ⟨10000, 2⟩, ⟨5000, 2⟩, 2, ⟨0, 0⟩, ⟨0, 0⟩, "Е"⟩ =
      .error ("Сумма " ++ toString (5000 : Int) ++ " не соответствует количеству " ++
        toString (0 : Int) ++ " * цена " ++ toString (10000 : Int)) := by
  refine ⟨fun raw => rfl, ?_, by decide, by decide, by decide, by decide⟩
  intro raw it h
  obtain ⟨he, _⟩ := mkItem_ok h
  subst he
  exact ⟨rfl, rfl, rfl⟩

theorem c10_witness :
    (⟨"Item A", 1, 7998, 7998, 2, 4, 1⟩ : Item).quantity = truncQuantity ⟨100, 2⟩ ∧
    (⟨"Item A", 1, 7998, 7998, 2, 4, 1⟩ : Item).price = toCents ⟨7999, 2⟩ ∧
    (⟨"Item A", 1, 7998, 7998, 2, 4, 1⟩ : Item).sum = toCents ⟨7999, 2⟩ :=
  c10_quantity_truncation.2.1 ⟨"Item A", ⟨100, 2⟩, ⟨7999, 2⟩, ⟨7999, 2⟩, 2, ⟨0, 0⟩, ⟨0, 0⟩, "Е"⟩
    ⟨"Item A", 1, 7998, 7998, 2, 4, 1⟩ (by decide)

end Fiskal
